import Mathlib

/-!
Shallow embedding of the Notes backend (`backend - fastAPI/main.py`).

Modelling conventions:
* SQLite rows of the `notes` table become a `List Note` kept in insertion
  order; `AUTOINCREMENT` on the `id` primary key is modelled by a `nextId`
  counter that only grows (SQLite's AUTOINCREMENT keyword guarantees that a
  rowid is never reused, via the `sqlite_sequence` table).
* `datetime.now().isoformat()` timestamps become `Nat` clock values; SQLite
  compares the ISO strings lexicographically, which agrees with chronological
  order for a monotone clock, so `ORDER BY updated_at DESC` becomes a sort by
  the `Nat` key, descending.  The monotone-clock assumption is explicit in the
  step relation below.
* Each FastAPI handler becomes a pure function from the store (plus the
  request data and the current time) to the new store and the HTTP outcome;
  `raise HTTPException(404, ...)` becomes the `ApiError.notFound404` value.
* The pydantic layer (`NoteCreate`, `NoteUpdate`) is modelled by parse
  functions over `JsonField`, which distinguishes an absent key, an explicit
  JSON `null`, a JSON string, and a value of any other JSON type.
-/

namespace NotesApp

/-- A row of the `notes` table (also the `Note` response model of `main.py`). -/
structure Note where
  id : Nat
  title : String
  content : String
  created_at : Nat
  updated_at : Nat
deriving DecidableEq, Repr

/-- Request model for `POST /notes`: both fields required (`title: str`). -/
structure NoteCreate where
  title : String
  content : String
deriving DecidableEq, Repr

/-- Request model for `PUT /notes/{id}`: `Optional[str] = None` fields. -/
structure NoteUpdate where
  title : Option String
  content : Option String
deriving DecidableEq, Repr

/-- One field of a JSON request body, as seen by the pydantic validator:
the key can be absent, explicitly `null`, a string, or of some other type. -/
inductive JsonField where
  | absent
  | null
  | str (s : String)
  | other
deriving DecidableEq, Repr

/-- HTTP error outcomes raised by the handlers: pydantic validation failure
(422) or `HTTPException(status_code=404, detail=...)`. -/
inductive ApiError where
  | validation422
  | notFound404 (detail : String)
deriving DecidableEq, Repr

/-- The persistent state: the `notes` table plus the AUTOINCREMENT counter
(the next rowid SQLite will hand out; it never decreases). -/
structure Store where
  notes : List Note
  nextId : Nat
deriving DecidableEq, Repr

/-- Startup `init_db`: `CREATE TABLE IF NOT EXISTS` — the empty table; SQLite
AUTOINCREMENT assigns ids starting from 1. -/
def init_db : Store := ⟨[], 1⟩

/-- Row lookup `SELECT * FROM notes WHERE id = ?` followed by `fetchone()`. -/
def getById (s : Store) (note_id : Nat) : Option Note :=
  s.notes.find? (fun n => n.id == note_id)

/-- The `ORDER BY updated_at DESC` comparison, as a relation on rows. -/
def byUpdatedDesc (a b : Note) : Prop := b.updated_at ≤ a.updated_at

instance : DecidableRel byUpdatedDesc := fun a b => Nat.decLe b.updated_at a.updated_at

instance : IsTotal Note byUpdatedDesc := ⟨fun a b => le_total b.updated_at a.updated_at⟩

instance : IsTrans Note byUpdatedDesc := ⟨fun _ _ _ hab hbc => le_trans hbc hab⟩

/-- Endpoint `GET /notes`: `SELECT * FROM notes ORDER BY updated_at DESC`.
Modelled by a stable sort on the `updated_at` key, descending. -/
def get_notes (s : Store) : List Note :=
  List.insertionSort byUpdatedDesc s.notes

/-- Endpoint `GET /notes/{note_id}`: fetch one row; 404 `"Note not found"` if absent. -/
def get_note (s : Store) (note_id : Nat) : Except ApiError Note :=
  match getById s note_id with
  | none => .error (.notFound404 "Note not found")
  | some n => .ok n

/-- The `POST /notes` handler body (after pydantic validation): INSERT the new
row with `created_at = updated_at = now`, take `cursor.lastrowid`, then
re-SELECT that row and return it. -/
def create_note (s : Store) (note : NoteCreate) (now : Nat) : Store × Option Note :=
  let row : Note := ⟨s.nextId, note.title, note.content, now, now⟩
  let s' : Store := ⟨s.notes ++ [row], s.nextId + 1⟩
  (s', getById s' row.id)

/-- The `PUT /notes/{note_id}` handler body (after pydantic validation): check
existence (404 if absent), keep each field whose update value is `None`,
set `updated_at = now` unconditionally, UPDATE, then re-SELECT the row. -/
def update_note (s : Store) (note_id : Nat) (note_update : NoteUpdate) (now : Nat) :
    Store × Except ApiError (Option Note) :=
  match getById s note_id with
  | none => (s, .error (.notFound404 "Note not found"))
  | some existing_note =>
    let title := match note_update.title with
      | some t => t
      | none => existing_note.title
    let content := match note_update.content with
      | some c => c
      | none => existing_note.content
    let s' : Store :=
      ⟨s.notes.map (fun m =>
          if m.id == note_id then
            { m with title := title, content := content, updated_at := now }
          else m),
        s.nextId⟩
    (s', .ok (getById s' note_id))

/-- Endpoint `DELETE /notes/{note_id}`: check existence (404 if absent), DELETE the
row, return the success message. -/
def delete_note (s : Store) (note_id : Nat) : Store × Except ApiError String :=
  match getById s note_id with
  | none => (s, .error (.notFound404 "Note not found"))
  | some _ =>
    (⟨s.notes.filter (fun n => !(n.id == note_id)), s.nextId⟩,
      .ok "Note deleted successfully")

/-- Pydantic validation of a required `str` field (`title: str`): the key
must be present and a string; `null` and other types are rejected. -/
def parseStr (f : JsonField) : Except ApiError String :=
  match f with
  | .str s => .ok s
  | _ => .error .validation422

/-- Pydantic validation of an `Optional[str] = None` field: an absent key
and an explicit `null` both yield `None`; other non-string types fail. -/
def parseOptStr (f : JsonField) : Except ApiError (Option String) :=
  match f with
  | .absent => .ok none
  | .null => .ok none
  | .str s => .ok (some s)
  | .other => .error .validation422

/-- Pydantic validation of a `NoteCreate` body. -/
def parseNoteCreate (title content : JsonField) : Except ApiError NoteCreate :=
  match parseStr title, parseStr content with
  | .ok t, .ok c => .ok ⟨t, c⟩
  | .error e, _ => .error e
  | _, .error e => .error e

/-- Pydantic validation of a `NoteUpdate` body. -/
def parseNoteUpdate (title content : JsonField) : Except ApiError NoteUpdate :=
  match parseOptStr title, parseOptStr content with
  | .ok t, .ok c => .ok ⟨t, c⟩
  | .error e, _ => .error e
  | _, .error e => .error e

/-- Full `POST /notes` endpoint: FastAPI runs pydantic validation before the
handler, so a validation failure (422) leaves the store untouched. -/
def post_notes (s : Store) (title content : JsonField) (now : Nat) :
    Store × Except ApiError (Option Note) :=
  match parseNoteCreate title content with
  | .error e => (s, .error e)
  | .ok nc =>
    let r := create_note s nc now
    (r.1, .ok r.2)

/-- Full `PUT /notes/{note_id}` endpoint: pydantic validation of the
optional fields first, then the handler. -/
def put_note (s : Store) (note_id : Nat) (title content : JsonField) (now : Nat) :
    Store × Except ApiError (Option Note) :=
  match parseNoteUpdate title content with
  | .error e => (s, .error e)
  | .ok nu => update_note s note_id nu now

/-- A system state: the store plus the latest clock reading.  Every
timestamp handed to an operation so far is `≤ clock`; the monotone-clock
assumption of the spec is the side condition `σ.clock ≤ now` on the
clock-using steps below. -/
structure Sys where
  store : Store
  clock : Nat

/-- The state right after `startup_event` runs `init_db` on a fresh file. -/
def init : Sys := ⟨init_db, 0⟩

/-- One API operation, as a transition on system states.  `get` and `list`
do not touch the store; `create` and `update` read the clock (and may only
read a value at least as large as every earlier reading). -/
inductive Step : Sys → Sys → Prop where
  | create (σ : Sys) (nc : NoteCreate) (now : Nat) (h : σ.clock ≤ now) :
      Step σ ⟨(create_note σ.store nc now).1, now⟩
  | update (σ : Sys) (note_id : Nat) (nu : NoteUpdate) (now : Nat) (h : σ.clock ≤ now) :
      Step σ ⟨(update_note σ.store note_id nu now).1, now⟩
  | delete (σ : Sys) (note_id : Nat) :
      Step σ ⟨(delete_note σ.store note_id).1, σ.clock⟩
  | get (σ : Sys) (note_id : Nat) : Step σ σ
  | list (σ : Sys) : Step σ σ

/-- Any number of API operations. -/
def Steps : Sys → Sys → Prop := Relation.ReflTransGen Step

/-- States reachable from a fresh database under a monotone clock. -/
def Reachable (σ : Sys) : Prop := Steps init σ

/-- A one-row store for instantiating the theorems: the state right after
`POST /notes {"title": "T", "content": "C"}` against a fresh database at
time 1. -/
def exNote : Note := ⟨1, "T", "C", 1, 1⟩

/-- The store holding exactly `exNote`. -/
def exStore : Store := ⟨[exNote], 2⟩

/-- Worked listing scenario: create notes A, B, C at times 1, 2, 3, then
update A at time 4 (ids 1, 2, 3 respectively). -/
def scenario_store : Store :=
  (update_note
    (create_note (create_note (create_note init_db ⟨"A", "a"⟩ 1).1 ⟨"B", "b"⟩ 2).1
      ⟨"C", "c"⟩ 3).1
    1 ⟨none, some "a2"⟩ 4).1

/-- The store invariant: ids are positive, below the AUTOINCREMENT counter
and pairwise distinct, and every row satisfies
`created_at ≤ updated_at ≤ clock`. -/
def Inv (σ : Sys) : Prop :=
  1 ≤ σ.store.nextId ∧
  (∀ n ∈ σ.store.notes, 1 ≤ n.id ∧ n.id < σ.store.nextId) ∧
  σ.store.notes.Pairwise (fun a b => a.id ≠ b.id) ∧
  (∀ n ∈ σ.store.notes, n.created_at ≤ n.updated_at ∧ n.updated_at ≤ σ.clock)

lemma inv_init : Inv init := by
  refine ⟨le_refl 1, ?_, ?_, ?_⟩ <;> simp [init, init_db]

lemma inv_step {σ σ' : Sys} (hs : Step σ σ') (hi : Inv σ) : Inv σ' := by
  obtain ⟨h1, hid, hpw, hts⟩ := hi
  cases hs with
  | create nc now hnow =>
    refine ⟨le_trans h1 (Nat.le_succ _), ?_, ?_, ?_⟩
    · intro n hn
      simp only [create_note, List.mem_append, List.mem_singleton] at hn
      rcases hn with hn | rfl
      · exact ⟨(hid n hn).1, Nat.lt_succ_of_lt (hid n hn).2⟩
      · exact ⟨h1, Nat.lt_succ_self _⟩
    · simp only [create_note]
      rw [List.pairwise_append]
      refine ⟨hpw, List.pairwise_singleton _ _, ?_⟩
      intro a ha b hb
      simp only [List.mem_singleton] at hb
      subst hb
      exact Nat.ne_of_lt (hid a ha).2
    · intro n hn
      simp only [create_note, List.mem_append, List.mem_singleton] at hn
      rcases hn with hn | rfl
      · exact ⟨(hts n hn).1, le_trans (hts n hn).2 hnow⟩
      · exact ⟨le_refl _, le_refl _⟩
  | update note_id nu now hnow =>
    unfold update_note
    cases hfind : getById σ.store note_id with
    | none =>
      simp only [hfind]
      exact ⟨h1, hid, hpw, fun n hn =>
        ⟨(hts n hn).1, le_trans (hts n hn).2 hnow⟩⟩
    | some ex =>
      simp only [hfind]
      refine ⟨h1, ?_, ?_, ?_⟩
      · intro n hn
        simp only [List.mem_map] at hn
        obtain ⟨m, hm, rfl⟩ := hn
        by_cases hc : m.id == note_id <;> simp [hc] <;> exact hid m hm
      · rw [List.pairwise_map]
        refine hpw.imp_of_mem ?_
        intro a b _ _ hab
        by_cases hca : a.id == note_id <;> by_cases hcb : b.id == note_id <;>
          simp [hca, hcb] <;> exact hab
      · intro n hn
        simp only [List.mem_map] at hn
        obtain ⟨m, hm, rfl⟩ := hn
        by_cases hc : m.id == note_id
        · simp only [hc, if_pos]
          exact ⟨le_trans (hts m hm).1 (le_trans (hts m hm).2 hnow), le_refl _⟩
        · simp only [if_neg hc]
          exact ⟨(hts m hm).1, le_trans (hts m hm).2 hnow⟩
  | delete note_id =>
    unfold delete_note
    cases hfind : getById σ.store note_id with
    | none =>
      simp only [hfind]
      exact ⟨h1, hid, hpw, hts⟩
    | some ex =>
      simp only [hfind]
      refine ⟨h1, ?_, ?_, ?_⟩
      · intro n hn
        exact hid n (List.mem_of_mem_filter hn)
      · exact List.Pairwise.filter _ hpw
      · intro n hn
        exact hts n (List.mem_of_mem_filter hn)
  | get note_id => exact ⟨h1, hid, hpw, hts⟩
  | list => exact ⟨h1, hid, hpw, hts⟩

lemma inv_steps {σ σ' : Sys} (hs : Steps σ σ') (hi : Inv σ) : Inv σ' := by
  induction hs with
  | refl => exact hi
  | tail _ h ih => exact inv_step h ih

lemma inv_reachable {σ : Sys} (h : Reachable σ) : Inv σ :=
  inv_steps h inv_init

/-- The `nextId` counter never decreases across a step. -/
lemma nextId_mono_step {σ σ' : Sys} (hs : Step σ σ') :
    σ.store.nextId ≤ σ'.store.nextId := by
  cases hs with
  | create nc now hnow => exact Nat.le_succ _
  | update note_id nu now hnow =>
    unfold update_note
    cases hfind : getById σ.store note_id <;> simp [hfind]
  | delete note_id =>
    unfold delete_note
    cases hfind : getById σ.store note_id <;> simp [hfind]
  | get note_id => exact le_refl _
  | list => exact le_refl _

lemma nextId_mono_steps {σ σ' : Sys} (hs : Steps σ σ') :
    σ.store.nextId ≤ σ'.store.nextId := by
  induction hs with
  | refl => exact le_refl _
  | tail _ h ih => exact le_trans ih (nextId_mono_step h)

/-- Looking a row up by id commutes with an id-preserving row transformation. -/
lemma find?_map_id (notes : List Note) (note_id : Nat) (f : Note → Note)
    (hf : ∀ m, (f m).id = m.id) :
    (notes.map f).find? (fun n => n.id == note_id)
      = Option.map f (notes.find? (fun n => n.id == note_id)) := by
  rw [List.find?_map]
  have hp : ((fun n : Note => n.id == note_id) ∘ f) = (fun n : Note => n.id == note_id) := by
    funext m
    simp [Function.comp, hf]
  rw [hp]

/-- When the row exists, `update_note` updates it in place:  the re-SELECT
returns the row with `title`/`content` merged from the optional update
fields and `updated_at` set to `now` (`id` and `created_at` untouched). -/
lemma getById_after_update {s : Store} {note_id : Nat} {ex : Note}
    (hex : getById s note_id = some ex) (nu : NoteUpdate) (now : Nat) :
    getById (update_note s note_id nu now).1 note_id
      = some { ex with title := nu.title.getD ex.title,
                       content := nu.content.getD ex.content,
                       updated_at := now } := by
  have hex' : s.notes.find? (fun n => n.id == note_id) = some ex := hex
  have hbeq : (ex.id == note_id) = true := by simpa using List.find?_some hex'
  unfold update_note
  simp only [hex]
  unfold getById
  rw [find?_map_id]
  · unfold getById at hex
    rw [hex]
    rw [Option.map_some', if_pos hbeq]
    cases nu.title <;> cases nu.content <;> rfl
  · intro m
    by_cases hc : m.id == note_id <;> simp [hc]

/-- When the row exists, the body of `update_note` returns exactly the row
it re-SELECTs from the updated store. -/
lemma update_note_ok {s : Store} {note_id : Nat} {ex : Note}
    (hex : getById s note_id = some ex) (nu : NoteUpdate) (now : Nat) :
    (update_note s note_id nu now).2
      = .ok (getById (update_note s note_id nu now).1 note_id) := by
  unfold update_note
  simp only [hex]

/-- When the AUTOINCREMENT counter is fresh (no stored row carries it —
true in every reachable state), the re-SELECT inside `create_note` returns
exactly the row just INSERTed. -/
lemma create_note_snd {s : Store} (nc : NoteCreate) (now : Nat)
    (hfresh : ∀ m ∈ s.notes, m.id ≠ s.nextId) :
    (create_note s nc now).2 = some ⟨s.nextId, nc.title, nc.content, now, now⟩ := by
  unfold create_note getById
  simp only
  rw [List.find?_append]
  have h1 : s.notes.find? (fun n => n.id == s.nextId) = none := by
    rw [List.find?_eq_none]
    intro x hx
    simpa using hfresh x hx
  rw [h1]
  simp [List.find?]

/-- Once an id is absent from the table and strictly below the
AUTOINCREMENT counter, one operation keeps it so: the counter only grows,
and a fresh row always receives the counter as its id. -/
lemma absent_id_step {σ σ' : Sys} (hs : Step σ σ') (note_id : Nat)
    (h : (∀ n ∈ σ.store.notes, n.id ≠ note_id) ∧ note_id < σ.store.nextId) :
    (∀ n ∈ σ'.store.notes, n.id ≠ note_id) ∧ note_id < σ'.store.nextId := by
  obtain ⟨habs, hlt⟩ := h
  cases hs with
  | create nc now hnow =>
    constructor
    · intro n hn
      simp only [create_note, List.mem_append, List.mem_singleton] at hn
      rcases hn with hn | rfl
      · exact habs n hn
      · exact Nat.ne_of_gt hlt
    · exact Nat.lt_succ_of_lt hlt
  | update note_id' nu now hnow =>
    unfold update_note
    cases hfind : getById σ.store note_id' with
    | none =>
      simp only [hfind]
      exact ⟨habs, hlt⟩
    | some ex =>
      simp only [hfind]
      constructor
      · intro n hn
        simp only [List.mem_map] at hn
        obtain ⟨m, hm, rfl⟩ := hn
        by_cases hc : m.id == note_id' <;> simp [hc] <;> exact habs m hm
      · exact hlt
  | delete note_id' =>
    unfold delete_note
    cases hfind : getById σ.store note_id' with
    | none =>
      simp only [hfind]
      exact ⟨habs, hlt⟩
    | some ex =>
      simp only [hfind]
      exact ⟨fun n hn => habs n (List.mem_of_mem_filter hn), hlt⟩
  | get note_id' => exact ⟨habs, hlt⟩
  | list => exact ⟨habs, hlt⟩

lemma absent_id_steps {σ σ' : Sys} (hs : Steps σ σ') (note_id : Nat)
    (h : (∀ n ∈ σ.store.notes, n.id ≠ note_id) ∧ note_id < σ.store.nextId) :
    (∀ n ∈ σ'.store.notes, n.id ≠ note_id) ∧ note_id < σ'.store.nextId := by
  induction hs with
  | refl => exact h
  | tail _ hstep ih => exact absent_id_step hstep note_id ih

/-- C1 counterexample: `POST /notes` with an empty-string `title` is NOT
rejected — the handler answers 200 with the created record, and the record
(with its empty title) is persisted. -/
theorem c1_counterexample :
    (post_notes init_db (JsonField.str "") (JsonField.str "C") 0).2
        = .ok (some ⟨1, "", "C", 0, 0⟩)
  ∧ (post_notes init_db (JsonField.str "") (JsonField.str "C") 0).1.notes
        = [⟨1, "", "C", 0, 0⟩] :=
  ⟨rfl, rfl⟩

/-- C1 (amended): a `POST /notes` request creates a note exactly when both
`title` and `content` are present and of string type; presence and type are
checked (422 and no write otherwise), but emptiness is not — a request with
an empty-string `title` or `content` is accepted and the record persisted. -/
theorem c1_create_requires_string_fields (s : Store) (tf cf : JsonField) (now : Nat) :
    ((post_notes s tf cf now).2.isOk = true
        ↔ (∃ t, tf = JsonField.str t) ∧ (∃ c, cf = JsonField.str c))
  ∧ (∀ t c, tf = JsonField.str t → cf = JsonField.str c →
      (post_notes s tf cf now).1.notes = s.notes ++ [⟨s.nextId, t, c, now, now⟩])
  ∧ ((∀ t, tf ≠ JsonField.str t) ∨ (∀ c, cf ≠ JsonField.str c) →
      (post_notes s tf cf now).1 = s) := by
  refine ⟨?_, ?_, ?_⟩
  · cases tf <;> cases cf <;>
      simp [post_notes, parseNoteCreate, parseStr, Except.isOk, Except.toBool]
  · intro t c ht hc
    subst ht
    subst hc
    rfl
  · intro h
    cases tf with
    | str t =>
      cases cf with
      | str c =>
        rcases h with h | h
        · exact absurd rfl (h t)
        · exact absurd rfl (h c)
      | absent => rfl
      | null => rfl
      | other => rfl
    | absent => cases cf <;> rfl
    | null => cases cf <;> rfl
    | other => cases cf <;> rfl

/-- C1 witness: the amended claim, instantiated at an empty-title request
against the fresh database. -/
theorem c1_witness :
    ((post_notes init_db (JsonField.str "") (JsonField.str "C") 0).2.isOk = true
        ↔ (∃ t, JsonField.str "" = JsonField.str t)
          ∧ (∃ c, JsonField.str "C" = JsonField.str c))
  ∧ (∀ t c, JsonField.str "" = JsonField.str t → JsonField.str "C" = JsonField.str c →
      (post_notes init_db (JsonField.str "") (JsonField.str "C") 0).1.notes
        = init_db.notes ++ [⟨init_db.nextId, t, c, 0, 0⟩])
  ∧ ((∀ t, JsonField.str "" ≠ JsonField.str t) ∨ (∀ c, JsonField.str "C" ≠ JsonField.str c) →
      (post_notes init_db (JsonField.str "") (JsonField.str "C") 0).1 = init_db) :=
  c1_create_requires_string_fields init_db (JsonField.str "") (JsonField.str "C") 0

/-- C2: a `PUT /notes/{id}` supplying only `title` leaves `content` with
its prior value, and a `PUT` supplying only `content` leaves `title` with
its prior value (omitted fields keep their old value; `updated_at` is
refreshed). -/
theorem c2_partial_update_frame (s : Store) (note_id : Nat) (ex : Note)
    (hex : getById s note_id = some ex) (t c : String) (now : Nat) :
    getById (put_note s note_id (JsonField.str t) JsonField.absent now).1 note_id
        = some { ex with title := t, updated_at := now }
  ∧ getById (put_note s note_id JsonField.absent (JsonField.str c) now).1 note_id
        = some { ex with content := c, updated_at := now } := by
  constructor
  · have h := getById_after_update hex ⟨some t, none⟩ now
    simpa [put_note, parseNoteUpdate, parseOptStr, Option.getD] using h
  · have h := getById_after_update hex ⟨none, some c⟩ now
    simpa [put_note, parseNoteUpdate, parseOptStr, Option.getD] using h

/-- C2 witness: the frame property at the one-row store. -/
theorem c2_witness :
    getById (put_note exStore 1 (JsonField.str "T2") JsonField.absent 5).1 1
        = some { exNote with title := "T2", updated_at := 5 }
  ∧ getById (put_note exStore 1 JsonField.absent (JsonField.str "C2") 5).1 1
        = some { exNote with content := "C2", updated_at := 5 } :=
  c2_partial_update_frame exStore 1 exNote rfl "T2" "C2" 5

/-- C3: every accepted `PUT /notes/{id}` — whatever combination of fields
the body supplies, including none at all — stores and returns the row with
`updated_at` set to the current time. -/
theorem c3_put_refreshes_updated_at (s : Store) (note_id : Nat) (ex : Note)
    (hex : getById s note_id = some ex) (nu : NoteUpdate) (now : Nat) :
    ∃ n', (update_note s note_id nu now).2 = .ok (some n')
      ∧ getById (update_note s note_id nu now).1 note_id = some n'
      ∧ n'.updated_at = now := by
  refine ⟨_, ?_, getById_after_update hex nu now, rfl⟩
  rw [update_note_ok hex nu now, getById_after_update hex nu now]

/-- C3 witness: a `PUT` with an empty body (`title` and `content` both
absent) still refreshes `updated_at`. -/
theorem c3_witness :
    ∃ n', (update_note exStore 1 ⟨none, none⟩ 7).2 = .ok (some n')
      ∧ getById (update_note exStore 1 ⟨none, none⟩ 7).1 1 = some n'
      ∧ n'.updated_at = 7 :=
  c3_put_refreshes_updated_at exStore 1 exNote rfl ⟨none, none⟩ 7

/-- C9: a successful `POST /notes` returns a record whose `created_at`
equals its `updated_at` and which carries the supplied title and content. -/
theorem c9_create_timestamps_and_fields (s : Store) (nc : NoteCreate) (now : Nat)
    (hfresh : ∀ m ∈ s.notes, m.id ≠ s.nextId) :
    ∃ n, (create_note s nc now).2 = some n
      ∧ n.created_at = n.updated_at
      ∧ n.title = nc.title ∧ n.content = nc.content :=
  ⟨⟨s.nextId, nc.title, nc.content, now, now⟩, create_note_snd nc now hfresh, rfl, rfl, rfl⟩

/-- C9 witness: creation against the fresh database. -/
theorem c9_witness :
    ∃ n, (create_note init_db ⟨"T", "C"⟩ 1).2 = some n
      ∧ n.created_at = n.updated_at
      ∧ n.title = ("T" : String) ∧ n.content = ("C" : String) :=
  c9_create_timestamps_and_fields init_db ⟨"T", "C"⟩ 1 (by simp [init_db])

/-- C4: in every state reachable from a fresh database under a monotone
clock, every stored note satisfies `created_at ≤ updated_at`; the invariant
is established by create (which sets the two equal) and preserved by every
operation (list and get leave the store untouched; update only raises
`updated_at`; delete only removes rows). -/
theorem c4_updated_at_ge_created_at (σ : Sys) (h : Reachable σ)
    (n : Note) (hn : n ∈ σ.store.notes) : n.created_at ≤ n.updated_at :=
  ((inv_reachable h).2.2.2 n hn).1

/-- C4 witness: the invariant at the note created by one `POST` at time 3. -/
theorem c4_witness :
    (⟨1, "T", "C", 3, 3⟩ : Note).created_at ≤ (⟨1, "T", "C", 3, 3⟩ : Note).updated_at :=
  c4_updated_at_ge_created_at ⟨(create_note init_db ⟨"T", "C"⟩ 3).1, 3⟩
    (Relation.ReflTransGen.single (Step.create init ⟨"T", "C"⟩ 3 (by decide)))
    ⟨1, "T", "C", 3, 3⟩ (by decide)

/-- C5: in every reachable state the stored ids are pairwise distinct and
strictly below the AUTOINCREMENT counter; a create hands out exactly the
counter value as the new id (strictly greater than every id currently or
previously stored, since the counter never decreases), and after that
create — followed by any further operations — the counter stays strictly
above the id just assigned, so no id, deleted or not, is ever reused. -/
theorem c5_ids_unique_monotone (σ σ' : Sys) (h : Reachable σ)
    (nc : NoteCreate) (now : Nat)
    (hs : Steps ⟨(create_note σ.store nc now).1, now⟩ σ') :
    (create_note σ.store nc now).2
        = some ⟨σ.store.nextId, nc.title, nc.content, now, now⟩
  ∧ (∀ n ∈ σ.store.notes, n.id < σ.store.nextId)
  ∧ σ.store.notes.Pairwise (fun a b => a.id ≠ b.id)
  ∧ σ.store.nextId < σ'.store.nextId := by
  obtain ⟨h1, hid, hpw, hts⟩ := inv_reachable h
  refine ⟨create_note_snd nc now (fun m hm => Nat.ne_of_lt (hid m hm).2),
    fun n hn => (hid n hn).2, hpw, ?_⟩
  have hmono : σ.store.nextId + 1 ≤ σ'.store.nextId := nextId_mono_steps hs
  exact Nat.lt_of_succ_le hmono

/-- C5 witness: the first create against a fresh database assigns id 1, and
right after it the counter is 2. -/
theorem c5_witness :
    (create_note init_db ⟨"T", "C"⟩ 0).2 = some ⟨1, "T", "C", 0, 0⟩
  ∧ (∀ n ∈ init_db.notes, n.id < init_db.nextId)
  ∧ init_db.notes.Pairwise (fun a b => a.id ≠ b.id)
  ∧ init_db.nextId < (create_note init_db ⟨"T", "C"⟩ 0).1.nextId :=
  c5_ids_unique_monotone init ⟨(create_note init_db ⟨"T", "C"⟩ 0).1, 0⟩
    Relation.ReflTransGen.refl ⟨"T", "C"⟩ 0 Relation.ReflTransGen.refl

/-- C6: `GET /notes` returns exactly the stored notes (a permutation of the
table), sorted by `updated_at` descending; in the worked scenario — create
A, B, C in order, then update A — the listing order is [A, C, B]. -/
theorem c6_list_ordered_by_updated_at_desc (s : Store) :
    List.Sorted byUpdatedDesc (get_notes s)
  ∧ (get_notes s).Perm s.notes
  ∧ (get_notes scenario_store).map Note.id = [1, 3, 2] := by
  refine ⟨List.sorted_insertionSort byUpdatedDesc s.notes,
    List.perm_insertionSort byUpdatedDesc s.notes, ?_⟩
  rfl

/-- C6 witness: the listing properties at the one-row store. -/
theorem c6_witness :
    List.Sorted byUpdatedDesc (get_notes exStore)
  ∧ (get_notes exStore).Perm exStore.notes
  ∧ (get_notes scenario_store).map Note.id = [1, 3, 2] :=
  c6_list_ordered_by_updated_at_desc exStore

/-- C7: a `POST /notes` whose body misses a required field or carries a
non-string value is rejected with 422 before any persistence call: the
store is returned unchanged. -/
theorem c7_validation_422_no_persistence (s : Store) (tf cf : JsonField) (now : Nat)
    (h : (∀ t, tf ≠ JsonField.str t) ∨ (∀ c, cf ≠ JsonField.str c)) :
    (post_notes s tf cf now).1 = s
  ∧ (post_notes s tf cf now).2 = .error .validation422 := by
  cases tf with
  | str t =>
    cases cf with
    | str c =>
      rcases h with h | h
      · exact absurd rfl (h t)
      · exact absurd rfl (h c)
    | absent => exact ⟨rfl, rfl⟩
    | null => exact ⟨rfl, rfl⟩
    | other => exact ⟨rfl, rfl⟩
  | absent => cases cf <;> exact ⟨rfl, rfl⟩
  | null => cases cf <;> exact ⟨rfl, rfl⟩
  | other => cases cf <;> exact ⟨rfl, rfl⟩

/-- C7 witness: the spec scenario `POST /notes {"title": "T"}` (content
missing) against a fresh database: 422, no record created. -/
theorem c7_witness :
    (post_notes init_db (JsonField.str "T") JsonField.absent 0).1 = init_db
  ∧ (post_notes init_db (JsonField.str "T") JsonField.absent 0).2
      = .error .validation422 :=
  c7_validation_422_no_persistence init_db (JsonField.str "T") JsonField.absent 0
    (Or.inr (by simp))

/-- C8: after a successful `DELETE /notes/{id}`, every later
`GET /notes/{id}` for that id answers 404 `"Note not found"`, whatever
operations (including further creates, which never reuse the id) and
however many repeated GETs happen in between. -/
theorem c8_delete_then_get_404 (σ : Sys) (h : Reachable σ) (note_id : Nat)
    (hdel : (delete_note σ.store note_id).2 = .ok "Note deleted successfully")
    (σ' : Sys) (hs : Steps ⟨(delete_note σ.store note_id).1, σ.clock⟩ σ') :
    get_note σ'.store note_id = .error (.notFound404 "Note not found") := by
  obtain ⟨h1, hid, hpw, hts⟩ := inv_reachable h
  have hlt : note_id < σ.store.nextId := by
    cases hfind : getById σ.store note_id with
    | none =>
      unfold delete_note at hdel
      rw [hfind] at hdel
      cases hdel
    | some ex =>
      have hex' : σ.store.notes.find? (fun n => n.id == note_id) = some ex := hfind
      have hmem : ex ∈ σ.store.notes := List.mem_of_find?_eq_some hex'
      have hbeq : ex.id = note_id := by simpa using List.find?_some hex'
      exact hbeq ▸ (hid ex hmem).2
  have habs : ∀ n ∈ (delete_note σ.store note_id).1.notes, n.id ≠ note_id := by
    cases hfind : getById σ.store note_id with
    | none =>
      unfold delete_note at hdel
      rw [hfind] at hdel
      cases hdel
    | some ex =>
      intro n hn
      unfold delete_note at hn
      rw [hfind] at hn
      simp only [List.mem_filter] at hn
      simpa using hn.2
  have hnext : note_id < (delete_note σ.store note_id).1.nextId := by
    unfold delete_note
    cases hfind : getById σ.store note_id <;> simp [hfind] <;> exact hlt
  have hkeep := absent_id_steps hs note_id ⟨habs, hnext⟩
  have hnone : getById σ'.store note_id = none := by
    unfold getById
    rw [List.find?_eq_none]
    intro x hx
    simpa using hkeep.1 x hx
  unfold get_note
  rw [hnone]

/-- C8 witness: create a note (id 1) at time 0, delete it, then `GET` it:
404. -/
theorem c8_witness :
    get_note (delete_note (create_note init_db ⟨"T", "C"⟩ 0).1 1).1 1
      = .error (.notFound404 "Note not found") :=
  c8_delete_then_get_404 ⟨(create_note init_db ⟨"T", "C"⟩ 0).1, 0⟩
    (Relation.ReflTransGen.single (Step.create init ⟨"T", "C"⟩ 0 (by decide)))
    1 rfl ⟨(delete_note (create_note init_db ⟨"T", "C"⟩ 0).1 1).1, 0⟩
    Relation.ReflTransGen.refl

/-- C10: the pydantic `Optional[str] = None` fields make an explicit JSON
`null` indistinguishable from an omitted key — the existing value is kept,
so no `PUT` can store a null `title`/`content` (the row type has none) —
while an empty string is a genuine value and does replace the field. -/
theorem c10_null_treated_as_absent (s : Store) (note_id : Nat) (tf cf : JsonField)
    (now : Nat) (ex : Note) (hex : getById s note_id = some ex) :
    put_note s note_id JsonField.null cf now
        = put_note s note_id JsonField.absent cf now
  ∧ put_note s note_id tf JsonField.null now
        = put_note s note_id tf JsonField.absent now
  ∧ getById (put_note s note_id (JsonField.str "") (JsonField.str "") now).1 note_id
        = some { ex with title := "", content := "", updated_at := now } := by
  refine ⟨rfl, by cases tf <;> rfl, ?_⟩
  have h := getById_after_update hex ⟨some "", some ""⟩ now
  simpa [put_note, parseNoteUpdate, parseOptStr, Option.getD] using h

/-- C10 witness: nulls behave as omissions at the one-row store; an empty
string overwrites both fields. -/
theorem c10_witness :
    put_note exStore 1 JsonField.null (JsonField.str "x") 5
        = put_note exStore 1 JsonField.absent (JsonField.str "x") 5
  ∧ put_note exStore 1 (JsonField.str "x") JsonField.null 5
        = put_note exStore 1 (JsonField.str "x") JsonField.absent 5
  ∧ getById (put_note exStore 1 (JsonField.str "") (JsonField.str "") 5).1 1
        = some { exNote with title := "", content := "", updated_at := 5 } :=
  c10_null_treated_as_absent exStore 1 (JsonField.str "x") (JsonField.str "x") 5
    exNote rfl

end NotesApp
